import Mathlib

/-!
Shallow embedding of the Agentic-Appium-TS core: the bounds parser and tree
pruner (src/utils/xml-parser.ts), the hybrid locator with healing log
(src/utils/hybrid-locator.ts), the response parser/validator
(src/nodes/reasoner.ts and src/types.ts), and the observer/reasoner/executor
nodes with the router (src/nodes/*.ts, src/graph.ts).  JavaScript numbers are
modelled as Nat/Int, `string | undefined` as Option String, thrown exceptions
as Except, and external calls (device driver, vision service, JSON.parse,
the XML library) as explicitly passed oracle values.
-/

/-- JavaScript `a || b` for an optional string `a`: the empty string is falsy. -/
def jsOrOpt (a : Option String) (b : String) : String :=
  match a with
  | some s => if s = "" then b else s
  | none => b

/-- JavaScript `a || b` for two strings: the empty string is falsy. -/
def jsOrStr (a b : String) : String :=
  if a = "" then b else a

/-- JavaScript `a || null` for an optional string: empty string collapses to null. -/
def jsOrNull (a : Option String) : Option String :=
  match a with
  | some s => if s = "" then none else some s
  | none => none

/-- JavaScript truthiness of a `string | undefined` value. -/
def jsTruthy (a : Option String) : Bool :=
  match a with
  | some s => s ≠ ""
  | none => false

/-- JavaScript `a || b` for an optional number: 0 is falsy. -/
def jsOrNum (a : Option Int) (b : Int) : Int :=
  match a with
  | some n => if n = 0 then b else n
  | none => b

/-- Attribute lookup on an XML node's attribute record (`attrs[key]`). -/
def attrGet (attrs : List (String × String)) (k : String) : Option String :=
  attrs.lookup k

/-! ## Bounds parsing (src/utils/xml-parser.ts, parseBounds)

The source matches the unanchored regular expression
`\[(\d+),(\d+)\]\[(\d+),(\d+)\]` against the bounds string and converts the
four captured digit runs with parseInt.  We model the regex engine by a
character-list scanner: at each start position try to match the literal
pattern with maximal digit runs (equivalent to the regex here because a digit
run is always followed by a non-digit in the pattern). -/

/-- Numeric value of a digit run, as computed by `parseInt(s, 10)`. -/
def digitsVal (ds : List Char) : Nat :=
  ds.foldl (fun a c => 10 * a + (c.toNat - '0'.toNat)) 0

/-- Split a character list into its maximal leading digit run and the rest. -/
def spanDigits : List Char → List Char × List Char
  | [] => ([], [])
  | c :: cs =>
    if c.isDigit then
      let p := spanDigits cs
      (c :: p.1, p.2)
    else ([], c :: cs)

/-- Consume one expected literal character. -/
def expectChar (c : Char) (cs : List Char) : Option (List Char) :=
  match cs with
  | x :: rest => if x = c then some rest else none
  | [] => none

/-- Try to match `[d1,d2][d3,d4]` at the head of the list, returning the four
numeric values and the unconsumed remainder. -/
def matchBoundsAt (cs : List Char) : Option ((Nat × Nat × Nat × Nat) × List Char) :=
  match expectChar '[' cs with
  | none => none
  | some r0 =>
    let p1 := spanDigits r0
    if p1.1 = [] then none else
    match expectChar ',' p1.2 with
    | none => none
    | some r1 =>
      let p2 := spanDigits r1
      if p2.1 = [] then none else
      match expectChar ']' p2.2 with
      | none => none
      | some r1a =>
        match expectChar '[' r1a with
        | none => none
        | some r2 =>
          let p3 := spanDigits r2
          if p3.1 = [] then none else
          match expectChar ',' p3.2 with
          | none => none
          | some r3 =>
            let p4 := spanDigits r3
            if p4.1 = [] then none else
            match expectChar ']' p4.2 with
            | none => none
            | some rest =>
              some ((digitsVal p1.1, digitsVal p2.1, digitsVal p3.1, digitsVal p4.1), rest)

/-- Regex search: try `matchBoundsAt` at every start position, left to right. -/
def searchBounds : List Char → Option (Nat × Nat × Nat × Nat)
  | [] => none
  | c :: cs =>
    match matchBoundsAt (c :: cs) with
    | some (v, _) => some v
    | none => searchBounds cs

/-- Parsed Android bounds with derived rounded center (src/types.ts, Bounds). -/
structure Bounds where
  x1 : Nat
  y1 : Nat
  x2 : Nat
  y2 : Nat
  centerX : Nat
  centerY : Nat
deriving DecidableEq, Repr

/-- Math.round for JavaScript: round half toward positive infinity. -/
def jsRound (q : ℚ) : ℤ := ⌊q + 1 / 2⌋

/-- parseBounds from src/utils/xml-parser.ts.  `Math.round((x1 + x2) / 2)` on
naturals equals `(x1 + x2 + 1) / 2` in truncating division. -/
def parseBounds (s : String) : Option Bounds :=
  match searchBounds s.data with
  | none => none
  | some (x1, y1, x2, y2) =>
    some { x1 := x1, y1 := y1, x2 := x2, y2 := y2
           centerX := (x1 + x2 + 1) / 2
           centerY := (y1 + y2 + 1) / 2 }

/-- The exact character shape `[d1,d2][d3,d4]` of a bounds string (the form
named by the spec), with the four digit runs made explicit. -/
def boundsToken (d1 d2 d3 d4 : List Char) : List Char :=
  '[' :: d1 ++ ',' :: d2 ++ ']' :: '[' :: d3 ++ ',' :: d4 ++ ']' :: []

/-- A nonempty run of decimal digits. -/
def goodDigits (ds : List Char) : Prop :=
  ds ≠ [] ∧ ∀ c ∈ ds, c.isDigit

/-- Modelled from the spec: a string is "of the form [x1,y1][x2,y2]" when it
is exactly a bounds token of four digit runs (nothing before or after). -/
def specBoundsForm (s : String) (x1 y1 x2 y2 : Nat) : Prop :=
  ∃ d1 d2 d3 d4, goodDigits d1 ∧ goodDigits d2 ∧ goodDigits d3 ∧ goodDigits d4 ∧
    s.data = boundsToken d1 d2 d3 d4 ∧
    digitsVal d1 = x1 ∧ digitsVal d2 = y1 ∧ digitsVal d3 = x2 ∧ digitsVal d4 = y2

/-! ## Tree pruner (src/utils/xml-parser.ts) -/

/-- A pruned UI element (src/types.ts, PrunedElement). -/
structure PrunedElement where
  resourceId : Option String
  text : Option String
  contentDesc : Option String
  className : String
  bounds : Bounds
  clickable : Bool
  enabled : Bool
deriving DecidableEq, Repr

/-- Whitespace as JavaScript's String.prototype.trim removes it. -/
def isJsSpace (c : Char) : Bool :=
  c = ' ' || c = '\t' || c = '\n' || c = '\r'

/-- JavaScript trim: strip whitespace from both ends. -/
def trimChars (cs : List Char) : List Char :=
  ((cs.dropWhile isJsSpace).reverse.dropWhile isJsSpace).reverse

/-- truncateText from src/utils/xml-parser.ts: falsy text becomes null, text is
trimmed, whitespace-only text becomes null, text longer than 50 characters is
cut to 50 characters plus an ellipsis. -/
def truncateText (t : Option String) : Option String :=
  match t with
  | none => none
  | some s =>
    if s = "" then none
    else
      let trimmed := trimChars s.data
      if trimmed.length = 0 then none
      else if trimmed.length ≤ 50 then some (String.mk trimmed)
      else some (String.mk (trimmed.take 50) ++ "...")

/-- hasIdentifiableContent from src/utils/xml-parser.ts. -/
def hasIdentifiableContent (attrs : List (String × String)) : Bool :=
  jsTruthy (attrGet attrs "resource-id") ||
  jsTruthy (attrGet attrs "text") ||
  jsTruthy (attrGet attrs "content-desc")

/-- isVisible from src/utils/xml-parser.ts: not marked displayed="false", and
bounds parse to a box with positive width and height. -/
def isVisible (attrs : List (String × String)) : Bool :=
  if attrGet attrs "displayed" = some "false" then false
  else
    match parseBounds (jsOrOpt (attrGet attrs "bounds") "") with
    | none => false
    | some b => ¬(b.x2 ≤ b.x1 ∨ b.y2 ≤ b.y1)

/-- The element emitted for one node's attribute record, when any (the body of
the push in extractElements, src/utils/xml-parser.ts). -/
def emitElement (attrs : List (String × String)) : Option PrunedElement :=
  if jsTruthy (attrGet attrs "bounds") && isVisible attrs then
    match parseBounds (jsOrOpt (attrGet attrs "bounds") "") with
    | none => none
    | some bounds =>
      if hasIdentifiableContent attrs || (attrGet attrs "clickable" = some "true") then
        some { resourceId := jsOrNull (attrGet attrs "resource-id")
               text := truncateText (attrGet attrs "text")
               contentDesc := truncateText (attrGet attrs "content-desc")
               className := jsOrOpt (attrGet attrs "class") "unknown"
               bounds := bounds
               clickable := attrGet attrs "clickable" = some "true"
               enabled := attrGet attrs "enabled" ≠ some "false" }
      else none
  else none

/-- A parsed XML node: attribute record plus child nodes in document order. -/
inductive XmlNode where
  | mk (attrs : List (String × String)) (children : List XmlNode)
deriving Repr

/-- Attribute record of a node. -/
def XmlNode.attrs : XmlNode → List (String × String)
  | .mk a _ => a

/-- extractElements from src/utils/xml-parser.ts: depth-first pre-order walk,
emitting a pruned element per qualifying node. -/
def extractElements : List XmlNode → List PrunedElement
  | [] => []
  | .mk attrs children :: rest =>
    (emitElement attrs).toList ++ extractElements children ++ extractElements rest

/-- parseAndroidXml from src/utils/xml-parser.ts: the external XML library's
outcome is passed in; a parse failure is caught and yields the empty list. -/
def parseAndroidXml (parsed : Except String (List XmlNode)) : List PrunedElement :=
  match parsed with
  | .error _ => []
  | .ok nodes => extractElements nodes

/-! ## Locator abstraction (src/drivers/types.ts) -/

/-- LocatorStrategy from src/drivers/types.ts. -/
inductive LocatorStrategy where
  | accessibilityId (value : String)
  | resourceId (value : String)
  | text (value : String)
  | xpath (value : String)
  | coordinates (x y : Int)
deriving DecidableEq, Repr

/-- ElementResult from src/drivers/types.ts. -/
structure ElementResult where
  found : Bool
  x : Option Int := none
  y : Option Int := none
  width : Option Int := none
  height : Option Int := none
  text : Option String := none
  error : Option String := none
deriving DecidableEq, Repr

/-! ## Hybrid locator (src/utils/hybrid-locator.ts) -/

/-- HealingEvent from src/utils/hybrid-locator.ts (timestamp as a plain number). -/
structure HealingEvent where
  timestamp : Nat
  attemptedLocator : LocatorStrategy
  success : Bool
  method : String
  coordinates : Option (Int × Int) := none
  error : Option String := none
  healingTriggered : Bool
deriving DecidableEq, Repr

/-- HybridLocateResult from src/utils/hybrid-locator.ts. -/
structure HybridLocateResult where
  found : Bool
  x : Option Int := none
  y : Option Int := none
  method : String
  healingTriggered : Bool
  error : Option String := none
deriving DecidableEq, Repr

/-- Outcome of one vision-fallback round trip: the fallback function resolves
with coordinates, resolves with null, or the screenshot capture or the
fallback itself throws (both are caught by the same try block). -/
inductive VisionOut where
  | coords (x y : Int)
  | absent
  | raised
deriving DecidableEq, Repr

/-- External responses consumed by one locate call: what the driver's
findByAccessibilityId / findByResourceId / findByText return for each
structural locator, the vision round-trip outcome, and the clock. -/
structure LocEnv where
  findResult : LocatorStrategy → ElementResult
  vision : VisionOut
  timestamp : Nat

/-- trySelector from src/utils/hybrid-locator.ts: dispatch the structural
lookup; xpath is unsupported; coordinates short-circuit as already found. -/
def trySelector (env : LocEnv) (locator : LocatorStrategy) : ElementResult :=
  match locator with
  | .accessibilityId _ => env.findResult locator
  | .resourceId _ => env.findResult locator
  | .text _ => env.findResult locator
  | .xpath _ => { found := false, error := some "XPath requires direct driver access" }
  | .coordinates x y => { found := true, x := some x, y := some y }

/-- locate from src/utils/hybrid-locator.ts: selector first, then vision
fallback when configured, recording exactly one healing event.  The healing
log is threaded explicitly; `visionConfigured` says whether a vision-fallback
function was supplied at construction. -/
def locate (visionConfigured : Bool) (env : LocEnv) (locator : LocatorStrategy)
    (_elementDescription : String) (log : List HealingEvent) :
    HybridLocateResult × List HealingEvent :=
  let selectorResult := trySelector env locator
  if selectorResult.found ∧ selectorResult.x ≠ none ∧ selectorResult.y ≠ none then
    let ev : HealingEvent :=
      { timestamp := env.timestamp, attemptedLocator := locator, success := true
        method := "selector"
        coordinates := some ((selectorResult.x).getD 0, (selectorResult.y).getD 0)
        healingTriggered := false }
    ({ found := true, x := selectorResult.x, y := selectorResult.y
       method := "selector", healingTriggered := false }, log ++ [ev])
  else
    let failEvent : HealingEvent :=
      { timestamp := env.timestamp, attemptedLocator := locator, success := false
        method := "selector", error := selectorResult.error
        healingTriggered := visionConfigured }
    let failResult : HybridLocateResult :=
      { found := false, method := "none", healingTriggered := visionConfigured
        error := some (jsOrOpt selectorResult.error "Element not found") }
    let fallThrough := (failResult, log ++ [failEvent])
    if visionConfigured then
      match env.vision with
      | .coords vx vy =>
        let ev : HealingEvent :=
          { timestamp := env.timestamp, attemptedLocator := locator, success := true
            method := "vision", coordinates := some (vx, vy), healingTriggered := true }
        ({ found := true, x := some vx, y := some vy
           method := "vision", healingTriggered := true }, log ++ [ev])
      | _ => fallThrough
    else fallThrough

/-- locateAndTap from src/utils/hybrid-locator.ts: locate, then tap at the
coordinates; on a miss throw a location error carrying the description.  The
returned list is the taps issued to the driver. -/
def locateAndTap (visionConfigured : Bool) (env : LocEnv) (locator : LocatorStrategy)
    (elementDescription : String) (log : List HealingEvent) :
    Except String (Int × Int × String) × List (Int × Int) × List HealingEvent :=
  let r := locate visionConfigured env locator elementDescription log
  let result := r.1
  match result.found, result.x, result.y with
  | true, some x, some y => (.ok (x, y, result.method), [(x, y)], r.2)
  | _, _, _ =>
    (.error ("Failed to locate element: " ++ elementDescription ++ ". " ++
      jsOrOpt result.error ""), [], r.2)

/-- locateAndType from src/utils/hybrid-locator.ts: locateAndTap, settle
delay, then type the text into the focused field. -/
def locateAndType (visionConfigured : Bool) (env : LocEnv) (locator : LocatorStrategy)
    (elementDescription : String) (_text : String) (log : List HealingEvent) :
    Except String (Int × Int × String) × List (Int × Int) × List HealingEvent :=
  locateAndTap visionConfigured env locator elementDescription log

/-- The record returned by getHealingStats (src/utils/hybrid-locator.ts). -/
structure HealingStats where
  totalAttempts : Nat
  selectorSuccesses : Nat
  visionSuccesses : Nat
  failures : Nat
  healingRate : ℚ
deriving DecidableEq, Repr

/-- getHealingStats from src/utils/hybrid-locator.ts: pure aggregation of the
healing log. -/
def getHealingStats (log : List HealingEvent) : HealingStats :=
  let total := log.length
  let selectorSuccesses := (log.filter (fun e => e.success && e.method == "selector")).length
  let visionSuccesses := (log.filter (fun e => e.success && e.method == "vision")).length
  let failures := (log.filter (fun e => !e.success)).length
  { totalAttempts := total
    selectorSuccesses := selectorSuccesses
    visionSuccesses := visionSuccesses
    failures := failures
    healingRate := if 0 < total then (visionSuccesses : ℚ) / (total : ℚ) else 0 }

/-! ## Response parser/validator (src/nodes/reasoner.ts, src/types.ts) -/

/-- A JSON value as produced by JSON.parse (numbers as integers: the claims
never exercise fractional values). -/
inductive Json where
  | null
  | bool (b : Bool)
  | num (n : Int)
  | str (s : String)
  | arr (xs : List Json)
  | obj (fields : List (String × Json))

/-- SelectorType from src/types.ts. -/
inductive SelectorType where
  | accessibilityId
  | resourceId
  | text
  | xpath
  | coordinates
deriving DecidableEq, Repr

/-- SelectorHint from src/types.ts. -/
structure SelectorHint where
  type : SelectorType
  value : Option String := none
  x : Option Int := none
  y : Option Int := none
deriving DecidableEq, Repr

/-- ActionParams from src/types.ts. -/
structure ActionParams where
  x : Option Int := none
  y : Option Int := none
  text : Option String := none
  direction : Option String := none
  duration : Option Int := none
  selector : Option SelectorHint := none
  elementDescription : Option String := none
deriving DecidableEq, Repr

/-- ReasonerOutput from src/types.ts (after Zod validation). -/
structure ReasonerOutput where
  thought : String
  action : String
  params : ActionParams
  targetElement : String
deriving DecidableEq, Repr

/-- Field lookup in a parsed JSON object. -/
def jsonGet (fields : List (String × Json)) (k : String) : Option Json :=
  fields.lookup k

/-- Zod z.string(). -/
def zodString : Json → Except String String
  | .str s => .ok s
  | _ => .error "Expected string"

/-- Zod z.number(). -/
def zodNumber : Json → Except String Int
  | .num n => .ok n
  | _ => .error "Expected number"

/-- Zod optional field: missing is fine, present values must validate. -/
def zodOptField (fields : List (String × Json)) (k : String)
    (f : Json → Except String α) : Except String (Option α) :=
  match jsonGet fields k with
  | none => .ok none
  | some j =>
    match f j with
    | .error e => .error e
    | .ok v => .ok (some v)

/-- Zod validation of a selector-type string (SelectorHintSchema, src/types.ts). -/
def zodSelectorType : Json → Except String SelectorType
  | .str "accessibilityId" => .ok .accessibilityId
  | .str "resourceId" => .ok .resourceId
  | .str "text" => .ok .text
  | .str "xpath" => .ok .xpath
  | .str "coordinates" => .ok .coordinates
  | _ => .error "Invalid selector type"

/-- The fixed action vocabulary of ReasonerOutputSchema (src/types.ts). -/
def actionEnum : List String := ["click", "type", "swipe", "scroll", "wait", "done"]

/-- The fixed direction vocabulary of ReasonerOutputSchema (src/types.ts). -/
def directionEnum : List String := ["up", "down", "left", "right"]

/-- Zod z.enum over a list of string literals. -/
def zodEnum (allowed : List String) : Json → Except String String
  | .str s => if s ∈ allowed then .ok s else .error ("Invalid enum value: " ++ s)
  | _ => .error "Expected string"

/-- SelectorHintSchema.parse from src/types.ts. -/
def zodSelectorHint : Json → Except String SelectorHint
  | .obj fields =>
    match (match jsonGet fields "type" with
           | none => (.error "Selector type required" : Except String SelectorType)
           | some j => zodSelectorType j) with
    | .error e => .error e
    | .ok t =>
      match zodOptField fields "value" zodString with
      | .error e => .error e
      | .ok v =>
        match zodOptField fields "x" zodNumber with
        | .error e => .error e
        | .ok hx =>
          match zodOptField fields "y" zodNumber with
          | .error e => .error e
          | .ok hy => .ok { type := t, value := v, x := hx, y := hy }
  | _ => .error "Expected object"

/-- The params object schema inside ReasonerOutputSchema (src/types.ts). -/
def zodParams : Json → Except String ActionParams
  | .obj fields =>
    match zodOptField fields "x" zodNumber with
    | .error e => .error e
    | .ok px =>
      match zodOptField fields "y" zodNumber with
      | .error e => .error e
      | .ok py =>
        match zodOptField fields "text" zodString with
        | .error e => .error e
        | .ok pt =>
          match zodOptField fields "direction" (zodEnum directionEnum) with
          | .error e => .error e
          | .ok pd =>
            match zodOptField fields "duration" zodNumber with
            | .error e => .error e
            | .ok pu =>
              match zodOptField fields "selector" zodSelectorHint with
              | .error e => .error e
              | .ok ps =>
                match zodOptField fields "elementDescription" zodString with
                | .error e => .error e
                | .ok pe =>
                  .ok { x := px, y := py, text := pt, direction := pd, duration := pu
                        selector := ps, elementDescription := pe }
  | _ => .error "Expected object"

/-- ReasonerOutputSchema.parse from src/types.ts: thought and action required,
params default to an empty bag, targetElement defaults to "unknown". -/
def zodReasonerOutput : Json → Except String ReasonerOutput
  | .obj fields =>
    match (match jsonGet fields "thought" with
           | none => (.error "thought required" : Except String String)
           | some j => zodString j) with
    | .error e => .error e
    | .ok thought =>
      match (match jsonGet fields "action" with
             | none => (.error "action required" : Except String String)
             | some j => zodEnum actionEnum j) with
      | .error e => .error e
      | .ok act =>
        match (match jsonGet fields "params" with
               | none => (.ok {} : Except String ActionParams)
               | some j => zodParams j) with
        | .error e => .error e
        | .ok params =>
          match (match jsonGet fields "targetElement" with
                 | none => (.ok "unknown" : Except String String)
                 | some j => zodString j) with
          | .error e => .error e
          | .ok target =>
            .ok { thought := thought, action := act, params := params
                  targetElement := target }
  | _ => .error "Expected object"

/-- The backtick character. -/
def tick : Char := Char.ofNat 96

/-- The three-backtick fence delimiter. -/
def fenceChars : List Char := [tick, tick, tick]

/-- Strip a literal from the head of a character list. -/
def dropLit : List Char → List Char → Option (List Char)
  | [], cs => some cs
  | _ :: _, [] => none
  | l :: ls, c :: cs => if c = l then dropLit ls cs else none

/-- Content strictly before the first fence occurrence, with the remainder
after that fence. -/
def splitBeforeFence : List Char → Option (List Char × List Char)
  | [] => none
  | c :: cs =>
    match dropLit fenceChars (c :: cs) with
    | some rest => some ([], rest)
    | none =>
      match splitBeforeFence cs with
      | some (pre, rest) => some (c :: pre, rest)
      | none => none

/-- The fenced-code-block regex of parseReasonerResponse: find the first
position where three backticks, an optional literal "json", greedy whitespace
and a lazily matched body followed by three closing backticks all match, and
return the captured body. -/
def fencedFrom : List Char → Option (List Char)
  | [] => none
  | c :: cs =>
    match dropLit fenceChars (c :: cs) with
    | some afterOpen =>
      let afterJson := match dropLit "json".data afterOpen with
        | some r => r
        | none => afterOpen
      let body := afterJson.dropWhile isJsSpace
      match splitBeforeFence body with
      | some (content, _) => some content
      | none => fencedFrom cs
    | none => fencedFrom cs

/-- Longest prefix of the list ending at its last closing brace, when any. -/
def upToLastBrace : List Char → Option (List Char)
  | [] => none
  | c :: rest =>
    match upToLastBrace rest with
    | some t => some (c :: t)
    | none => if c = '}' then some [c] else none

/-- The greedy object regex of parseReasonerResponse: the substring from the
first opening brace to the last closing brace after it, when both exist. -/
def braceExtract : List Char → Option (List Char)
  | [] => none
  | c :: cs =>
    if c = '{' then
      match upToLastBrace cs with
      | some t => some (c :: t)
      | none => braceExtract cs
    else braceExtract cs

/-- The string handed to JSON.parse by parseReasonerResponse
(src/nodes/reasoner.ts): fenced block content when present, else the greedy
brace substring, else the whole trimmed response. -/
def extractJsonStr (text : String) : String :=
  match fencedFrom text.data with
  | some g => String.mk (trimChars g)
  | none =>
    match braceExtract text.data with
    | some b => String.mk b
    | none => String.mk (trimChars text.data)

/-- parseReasonerResponse from src/nodes/reasoner.ts.  JSON.parse is external:
its outcome on the extracted string is the oracle `jp`; a JSON.parse throw and
a Zod rejection both surface as a parse error, never as a default action. -/
def parseReasonerResponse (jp : String → Option Json) (text : String) :
    Except String ReasonerOutput :=
  match jp (extractJsonStr text) with
  | none => .error ("JSON parse failure: " ++ extractJsonStr text)
  | some j => zodReasonerOutput j

/-! ## Agent state, reducers and the router (src/state.ts, src/graph.ts) -/

/-- AgentState from src/state.ts. -/
structure AgentState where
  screenshot : String := ""
  uiTree : List PrunedElement := []
  goal : String := ""
  actionHistory : List String := []
  retryCount : Nat := 0
  errors : List String := []
  isComplete : Bool := false
  lastAction : Option ReasonerOutput := none
  iteration : Nat := 0
deriving Repr

/-- A node's partial state update (Partial of AgentState): scalar fields are
optional replacements, the two sequence fields are appended chunks. -/
structure StatePatch where
  screenshot : Option String := none
  uiTree : Option (List PrunedElement) := none
  goal : Option String := none
  actionHistory : List String := []
  retryCount : Option Nat := none
  errors : List String := []
  isComplete : Option Bool := none
  lastAction : Option (Option ReasonerOutput) := none
  iteration : Option Nat := none
deriving Repr

/-- The per-field reducers of src/state.ts: replace for scalars, append for
actionHistory and errors, and the iteration reducer that increments the
previous value (or resets on 0). -/
def applyPatch (st : AgentState) (p : StatePatch) : AgentState :=
  { screenshot := p.screenshot.getD st.screenshot
    uiTree := p.uiTree.getD st.uiTree
    goal := p.goal.getD st.goal
    actionHistory := st.actionHistory ++ p.actionHistory
    retryCount := p.retryCount.getD st.retryCount
    errors := st.errors ++ p.errors
    isComplete := p.isComplete.getD st.isComplete
    lastAction := p.lastAction.getD st.lastAction
    iteration :=
      match p.iteration with
      | none => st.iteration
      | some n => if n = 0 then 0 else st.iteration + 1 }

/-- MAX_RETRIES from src/graph.ts. -/
def maxRetries : Nat := 3

/-- MAX_ITERATIONS from src/graph.ts. -/
def maxIterations : Nat := 15

/-- The router from src/graph.ts (createRouter): end on completion, retry
budget, or iteration cap; otherwise continue. -/
def router (st : AgentState) : String :=
  if st.isComplete then "end"
  else if maxRetries ≤ st.retryCount then "end"
  else if maxIterations ≤ st.iteration then "end"
  else "continue"

/-! ## Observer node (src/nodes/observer.ts) -/

/-- observer from src/nodes/observer.ts.  The capture oracle is the joint
outcome of getScreenshot and getPageSource (a rejection of either lands in
the catch); the page source arrives already run through the external XML
library (parseAndroidXml catches that library's failures itself). -/
def observerRun (capture : Except String (String × Except String (List XmlNode))) :
    StatePatch :=
  match capture with
  | .ok (shot, parsed) =>
    { screenshot := some shot, uiTree := some (parseAndroidXml parsed)
      iteration := some 1 }
  | .error msg => { errors := [msg] }

/-! ## Reasoner node (src/nodes/reasoner.ts) -/

/-- reasoner from src/nodes/reasoner.ts: skip when complete; otherwise the
service round trip (fetch plus response checks) either yields the response
text or throws; the text is parsed and validated; any failure is recorded
with an incremented retryCount and no action for this cycle. -/
def reasonerRun (st : AgentState) (service : Except String String)
    (jp : String → Option Json) : StatePatch :=
  if st.isComplete then {}
  else
    match service with
    | .error msg => { errors := [msg], retryCount := some (st.retryCount + 1) }
    | .ok content =>
      match parseReasonerResponse jp content with
      | .ok action => { lastAction := some (some action) }
      | .error msg => { errors := [msg], retryCount := some (st.retryCount + 1) }

/-! ## Executor node (src/nodes/executor.ts) -/

/-- selectorToLocator from src/nodes/executor.ts. -/
def selectorToLocator (s : SelectorHint) : LocatorStrategy :=
  match s.type with
  | .accessibilityId => .accessibilityId (s.value.getD "")
  | .resourceId => .resourceId (s.value.getD "")
  | .text => .text (s.value.getD "")
  | .xpath => .xpath (s.value.getD "")
  | .coordinates => .coordinates (jsOrNum s.x 0) (jsOrNum s.y 0)

/-- Truncation of typed text in history entries (20 characters plus ellipsis). -/
def jsTrunc20 (t : String) : String :=
  if 20 < t.length then String.mk (t.data.take 20) ++ "..." else t

/-- Outcome of the executor's try block for one pending action: the done
action returns early, any other action either succeeds with a history entry
or throws a message caught by the surrounding catch.  Taps issued to the
driver and the healing log are carried along. -/
inductive ExecOutcome where
  | stepDone (entry : String)
  | stepOk (entry : String) (taps : List (Int × Int)) (log : List HealingEvent)
  | stepFail (msg : String) (taps : List (Int × Int)) (log : List HealingEvent)
deriving Repr

/-- The click branch without a usable selector hint (raw coordinates). -/
def clickRaw (action : ReasonerOutput) (log : List HealingEvent) : ExecOutcome :=
  match action.params.x, action.params.y with
  | some x, some y =>
    .stepOk ("Clicked at (" ++ toString x ++ ", " ++ toString y ++ ") - " ++
      action.targetElement) [(x, y)] log
  | _, _ => .stepFail "Click action requires x and y coordinates or selector hint" [] log

/-- The body of the executor's switch (src/nodes/executor.ts, the try block). -/
def execAttempt (visionConfigured : Bool) (env : LocEnv) (action : ReasonerOutput)
    (log : List HealingEvent) : ExecOutcome :=
  if action.action = "click" then
    match action.params.selector with
    | some sel =>
      if sel.type ≠ .coordinates then
        let locator := selectorToLocator sel
        let description := jsOrOpt action.params.elementDescription
          (jsOrStr action.targetElement "unknown element")
        match locateAndTap visionConfigured env locator description log with
        | (.ok (x, y, method), taps, log') =>
          let entry := "Clicked " ++ description ++ " at (" ++ toString x ++ ", " ++
            toString y ++ ") via " ++ method
          .stepOk (if method = "vision" then entry ++ " [HEALED]" else entry) taps log'
        | (.error _, _, log') =>
          match action.params.x, action.params.y with
          | some x, some y =>
            .stepOk ("Clicked at (" ++ toString x ++ ", " ++ toString y ++ ") - " ++
              action.targetElement ++ " (fallback to coordinates)") [(x, y)] log'
          | _, _ => .stepFail ("Failed to locate element: " ++ description) [] log'
      else clickRaw action log
    | none => clickRaw action log
  else if action.action = "type" then
    match action.params.text with
    | some t =>
      if t = "" then .stepFail "Type action requires text parameter" [] log
      else
        match action.params.selector with
        | some sel =>
          if sel.type ≠ .coordinates then
            let locator := selectorToLocator sel
            let description := jsOrOpt action.params.elementDescription
              (jsOrStr action.targetElement "input field")
            match locateAndType visionConfigured env locator description t log with
            | (.ok (_, _, method), taps, log') =>
              let entry := "Typed \"" ++ jsTrunc20 t ++ "\" into " ++ description ++
                " via " ++ method
              .stepOk (if method = "vision" then entry ++ " [HEALED]" else entry) taps log'
            | (.error _, _, log') =>
              .stepOk ("Typed \"" ++ jsTrunc20 t ++ "\" (field already focused)") [] log'
          else
            .stepOk ("Typed \"" ++ jsTrunc20 t ++ "\" into " ++ action.targetElement) [] log
        | none =>
          .stepOk ("Typed \"" ++ jsTrunc20 t ++ "\" into " ++ action.targetElement) [] log
    | none => .stepFail "Type action requires text parameter" [] log
  else if action.action = "swipe" ∨ action.action = "scroll" then
    match action.params.direction with
    | some d =>
      if d = "" then .stepFail "Scroll/swipe action requires direction parameter" [] log
      else .stepOk ("Scrolled " ++ d) [] log
    | none => .stepFail "Scroll/swipe action requires direction parameter" [] log
  else if action.action = "wait" then
    .stepOk ("Waited " ++ toString (jsOrNum action.params.duration 500) ++ "ms") [] log
  else if action.action = "done" then
    .stepDone ("Goal completed: " ++ action.thought)
  else
    .stepFail ("Unknown action type: " ++ action.action) [] log

/-- executor from src/nodes/executor.ts: no-op without a pending action; the
done action returns early with only isComplete and a history entry; any other
success resets retryCount to 0; any caught failure records the error,
increments retryCount and appends a FAILED history entry. -/
def executorRun (visionConfigured : Bool) (env : LocEnv) (st : AgentState)
    (log : List HealingEvent) : StatePatch × List (Int × Int) × List HealingEvent :=
  match st.lastAction with
  | none => ({}, [], log)
  | some action =>
    match execAttempt visionConfigured env action log with
    | .stepDone entry =>
      ({ isComplete := some true, actionHistory := [entry] }, [], log)
    | .stepOk entry taps log' =>
      ({ actionHistory := [entry], retryCount := some 0 }, taps, log')
    | .stepFail msg taps log' =>
      ({ errors := ["Executor failed: " ++ msg]
         retryCount := some (st.retryCount + 1)
         actionHistory := ["FAILED: " ++ action.action ++ " - " ++ msg] }, taps, log')

/-! ## Concrete fixtures used by witnesses and counterexamples -/

/-- A driver whose structural lookups always miss with a plain error message. -/
def envNope : LocEnv :=
  { findResult := fun _ => { found := false, error := some "nope" }
    vision := .absent, timestamp := 0 }

/-- A driver whose structural lookups miss with an empty-string error message. -/
def envEmptyErr : LocEnv :=
  { findResult := fun _ => { found := false, error := some "" }
    vision := .absent, timestamp := 0 }

/-- A driver that resolves every structural lookup at (7, 9). -/
def envHit : LocEnv :=
  { findResult := fun _ => { found := true, x := some 7, y := some 9 }
    vision := .absent, timestamp := 0 }

/-- A done action as decided by the reasoner. -/
def doneAction : ReasonerOutput :=
  { thought := "goal reached", action := "done", params := {}, targetElement := "unknown" }

/-- A wait action. -/
def waitAction : ReasonerOutput :=
  { thought := "pause", action := "wait", params := {}, targetElement := "unknown" }

/-- A click with neither selector nor coordinates: the executor must fail. -/
def badClick : ReasonerOutput :=
  { thought := "tap it", action := "click", params := {}, targetElement := "unknown" }

/-- A coordinates-typed selector hint whose own x, y differ from params.x, params.y. -/
def coordSel : SelectorHint := { type := .coordinates, x := some 111, y := some 222 }

/-- A click carrying a coordinates selector hint plus explicit params coordinates. -/
def coordClick : ReasonerOutput :=
  { thought := "tap it", action := "click"
    params := { x := some 10, y := some 20, selector := some coordSel }
    targetElement := "btn" }

/-- A state with a pending done action and a nonzero retry count. -/
def stDone : AgentState := { goal := "g", retryCount := 2, lastAction := some doneAction }

/-- A state with a pending wait action and a nonzero retry count. -/
def stWait : AgentState := { goal := "g", retryCount := 5, lastAction := some waitAction }

/-- A state with a pending unexecutable click. -/
def stBadClick : AgentState := { goal := "g", retryCount := 1, lastAction := some badClick }

/-- A state with a pending coordinates-selector click. -/
def stCoord : AgentState := { goal := "g", retryCount := 0, lastAction := some coordClick }

/-- A successful selector healing event. -/
def evSel : HealingEvent :=
  { timestamp := 0, attemptedLocator := .text "a", success := true
    method := "selector", healingTriggered := false }

/-- A successful vision healing event. -/
def evVis : HealingEvent :=
  { timestamp := 0, attemptedLocator := .text "a", success := true
    method := "vision", healingTriggered := true }

/-- A failed healing event. -/
def evFail : HealingEvent :=
  { timestamp := 0, attemptedLocator := .text "a", success := false
    method := "selector", healingTriggered := false }

/-- A ten-attempt healing log: 7 selector successes, 2 vision successes, 1 failure. -/
def logTen : List HealingEvent :=
  List.replicate 7 evSel ++ List.replicate 2 evVis ++ [evFail]

/-- A JSON.parse oracle returning a fixed valid reasoner object. -/
def jpClick : String → Option Json :=
  fun _ => some (.obj [("thought", .str "t"), ("action", .str "click")])

/-- A concrete visible text node. -/
def nodeHi : XmlNode := .mk [("bounds", "[0,0][10,10]"), ("text", "hi")] []

/-- The pruned element the Tree Pruner emits for nodeHi. -/
def elemHi : PrunedElement :=
  { resourceId := none, text := some "hi", contentDesc := none
    className := "unknown"
    bounds := { x1 := 0, y1 := 0, x2 := 10, y2 := 10, centerX := 5, centerY := 5 }
    clickable := false, enabled := true }

/-! ## Theorems -/

/-- Claim C2: every call to locate, whatever its outcome, appends exactly one
HealingEvent to the healing log. -/
theorem locate_appends_exactly_one_event (vc : Bool) (env : LocEnv)
    (locator : LocatorStrategy) (d : String) (log : List HealingEvent) :
    (locate vc env locator d log).2.length = log.length + 1 := by
  unfold locate
  dsimp only
  repeat' split
  all_goals simp

/-- Claim C3: the router returns "end" exactly when isComplete is true, the
retry budget 3 is reached, or the iteration cap 15 is reached; otherwise it
returns "continue"; in particular isComplete alone forces "end". -/
theorem router_end_characterization (st : AgentState) :
    (router st = "end" ↔
      st.isComplete = true ∨ 3 ≤ st.retryCount ∨ 15 ≤ st.iteration) ∧
    (¬(st.isComplete = true ∨ 3 ≤ st.retryCount ∨ 15 ≤ st.iteration) →
      router st = "continue") ∧
    (st.isComplete = true → router st = "end") := by
  unfold router maxRetries maxIterations
  split_ifs with h1 h2 h3 <;> simp_all

/-- Claim C7: getHealingStats computes healingRate as vision successes over
total log length (0 on the empty log), and a 10-attempt log with 7 selector
successes, 2 vision successes and 1 failure yields healingRate 0.2 and an
overall success rate of 0.9. -/
theorem getHealingStats_rates :
    (∀ log : List HealingEvent,
      (getHealingStats log).healingRate =
        if log.length = 0 then 0
        else ((getHealingStats log).visionSuccesses : ℚ) / (log.length : ℚ)) ∧
    (∀ log : List HealingEvent,
      (getHealingStats log).totalAttempts = 10 →
      (getHealingStats log).selectorSuccesses = 7 →
      (getHealingStats log).visionSuccesses = 2 →
      (getHealingStats log).failures = 1 →
      (getHealingStats log).healingRate = 2 / 10 ∧
      (((getHealingStats log).selectorSuccesses : ℚ) +
          ((getHealingStats log).visionSuccesses : ℚ)) /
        ((getHealingStats log).totalAttempts : ℚ) = 9 / 10) := by
  constructor
  · intro log
    unfold getHealingStats
    dsimp only
    rcases Nat.eq_zero_or_pos log.length with h | h
    · simp [h]
    · rw [if_pos h, if_neg (by omega)]
  · intro log h1 h2 h3 h4
    have hlen : log.length = 10 := by
      simpa [getHealingStats] using h1
    have hvis : ((log.filter (fun e => e.success && e.method == "vision")).length) = 2 := by
      simpa [getHealingStats] using h3
    have hsel : ((log.filter (fun e => e.success && e.method == "selector")).length) = 7 := by
      simpa [getHealingStats] using h2
    constructor
    · simp [getHealingStats, hlen, hvis]
    · simp [getHealingStats, hlen, hvis, hsel]
      norm_num

/-- Witness for C7: the concrete ten-attempt log. -/
theorem getHealingStats_rates_witness :
    (getHealingStats logTen).totalAttempts = 10 ∧
    (getHealingStats logTen).selectorSuccesses = 7 ∧
    (getHealingStats logTen).visionSuccesses = 2 ∧
    (getHealingStats logTen).failures = 1 ∧
    (getHealingStats logTen).healingRate = 2 / 10 ∧
    (((getHealingStats logTen).selectorSuccesses : ℚ) +
        ((getHealingStats logTen).visionSuccesses : ℚ)) /
      ((getHealingStats logTen).totalAttempts : ℚ) = 9 / 10 := by
  have h := getHealingStats_rates.2 logTen (by decide) (by decide) (by decide) (by decide)
  exact ⟨by decide, by decide, by decide, by decide, h.1, h.2⟩

/-- Counterexample for claim C1: with no vision fallback and a structural
lookup that fails carrying the empty-string error message (which is present),
locate does not propagate that message: the JavaScript || treats the empty
string as absent and substitutes the generic message. -/
theorem locate_empty_error_not_propagated :
    (trySelector envEmptyErr (.text "x")).error = some "" ∧
    (locate false envEmptyErr (.text "x") "desc" []).1.found = false ∧
    (locate false envEmptyErr (.text "x") "desc" []).1.method = "none" ∧
    (locate false envEmptyErr (.text "x") "desc" []).1.error ≠ some "" ∧
    (locate false envEmptyErr (.text "x") "desc" []).1.error = some "Element not found" := by
  refine ⟨rfl, rfl, rfl, ?_, rfl⟩
  decide

/-- Claim C1 (amended): when the structural lookup yields no coordinates and
the vision fallback is absent, returns absence or raises, locate returns
found = false, method = "none", healingTriggered equal to whether a fallback
was configured, and an error that is the structural lookup's error message
when that message is present and nonempty, else the generic message
"Element not found". -/
theorem locate_both_fail_characterization (vc : Bool) (env : LocEnv)
    (locator : LocatorStrategy) (d : String) (log : List HealingEvent)
    (hsel : ¬((trySelector env locator).found = true ∧
      (trySelector env locator).x ≠ none ∧ (trySelector env locator).y ≠ none))
    (hvis : vc = false ∨ env.vision = .absent ∨ env.vision = .raised) :
    (locate vc env locator d log).1.found = false ∧
    (locate vc env locator d log).1.method = "none" ∧
    (locate vc env locator d log).1.healingTriggered = vc ∧
    (∀ e, (trySelector env locator).error = some e → e ≠ "" →
      (locate vc env locator d log).1.error = some e) ∧
    ((trySelector env locator).error = none ∨ (trySelector env locator).error = some "" →
      (locate vc env locator d log).1.error = some "Element not found") := by
  have hred : (locate vc env locator d log).1 =
      { found := false, method := "none", healingTriggered := vc
        error := some (jsOrOpt (trySelector env locator).error "Element not found") } := by
    unfold locate
    dsimp only
    rw [if_neg hsel]
    rcases hvis with h | h | h
    · subst h; rfl
    · cases vc
      · rfl
      · rw [h]; rfl
    · cases vc
      · rfl
      · rw [h]; rfl
  rw [hred]
  refine ⟨rfl, rfl, rfl, ?_, ?_⟩
  · intro e he hne
    simp [jsOrOpt, he, hne]
  · intro h
    rcases h with h | h <;> simp [jsOrOpt, h]

/-- Witness for C1 (amended): a structural miss with message "nope" and no
vision fallback propagates that message. -/
theorem locate_both_fail_witness :
    (locate false envNope (.text "x") "desc" []).1.found = false ∧
    (locate false envNope (.text "x") "desc" []).1.method = "none" ∧
    (locate false envNope (.text "x") "desc" []).1.healingTriggered = false ∧
    (locate false envNope (.text "x") "desc" []).1.error = some "nope" := by
  have h := locate_both_fail_characterization false envNope (.text "x") "desc" []
    (by decide) (Or.inl rfl)
  exact ⟨h.1, h.2.1, h.2.2.1, h.2.2.2.1 "nope" rfl (by decide)⟩

/-- Counterexample for claim C4: a successfully completed done action returns
a patch without any retryCount field, so a prior retryCount of 2 survives the
merge instead of being reset to 0. -/
theorem executor_done_leaves_retry_count :
    stDone.retryCount = 2 ∧
    (executorRun false envNope stDone []).1.isComplete = some true ∧
    (executorRun false envNope stDone []).1.errors = [] ∧
    (executorRun false envNope stDone []).1.retryCount = none ∧
    (executorRun false envNope stDone []).1.retryCount ≠ some 0 ∧
    (applyPatch stDone (executorRun false envNope stDone []).1).retryCount = 2 := by
  refine ⟨rfl, rfl, rfl, rfl, ?_, rfl⟩
  decide

/-- Claim C4 (amended): a successful Executor action other than done returns a
patch with retryCount exactly 0; the done action's patch omits retryCount
altogether (leaving the prior value unchanged) while setting isComplete. -/
theorem executor_success_resets_retry (vc : Bool) (env : LocEnv) (st : AgentState)
    (log : List HealingEvent) (a : ReasonerOutput) (ha : st.lastAction = some a) :
    ((executorRun vc env st log).1.errors = [] →
      (executorRun vc env st log).1.isComplete = none →
      (executorRun vc env st log).1.retryCount = some 0) ∧
    ((executorRun vc env st log).1.isComplete = some true →
      (executorRun vc env st log).1.retryCount = none ∧
      (executorRun vc env st log).1.errors = []) := by
  unfold executorRun
  rw [ha]
  dsimp only
  cases hA : execAttempt vc env a log <;> simp

/-- Witness for C4 (amended): a successful wait action resets retryCount from
5 to 0. -/
theorem executor_success_resets_retry_witness :
    stWait.retryCount = 5 ∧
    (executorRun false envNope stWait []).1.retryCount = some 0 := by
  have h := executor_success_resets_retry false envNope stWait [] waitAction rfl
  exact ⟨rfl, h.1 rfl rfl⟩

/-- Counterexample for claim C5: an Observer capture failure records the error
but returns a patch with no retryCount field at all, so the prior retryCount
is not incremented. -/
theorem observer_failure_does_not_increment_retry :
    (observerRun (.error "boom")).errors = ["boom"] ∧
    (observerRun (.error "boom")).retryCount = none ∧
    (applyPatch { goal := "g", retryCount := 1 } (observerRun (.error "boom"))).retryCount
      = 1 := by
  exact ⟨rfl, rfl, rfl⟩

/-- Claim C5 (amended): a Reasoner failure and an Executor failure record the
error and return a patch whose retryCount is the prior value plus one; an
Observer capture failure records the error but leaves retryCount unchanged
(its patch carries no retryCount). -/
theorem stage_failure_retry_accounting (capture : Except String (String × Except String (List XmlNode)))
    (st : AgentState) (svc : Except String String) (jp : String → Option Json)
    (vc : Bool) (env : LocEnv) (log : List HealingEvent) :
    ((observerRun capture).errors ≠ [] → (observerRun capture).retryCount = none) ∧
    ((reasonerRun st svc jp).errors ≠ [] →
      (reasonerRun st svc jp).retryCount = some (st.retryCount + 1)) ∧
    ((executorRun vc env st log).1.errors ≠ [] →
      (executorRun vc env st log).1.retryCount = some (st.retryCount + 1)) := by
  refine ⟨?_, ?_, ?_⟩
  · intro _
    cases capture <;> rfl
  · intro h
    unfold reasonerRun at h ⊢
    split_ifs at h ⊢ with hc
    · simp at h
    · cases svc with
      | error msg => rfl
      | ok content =>
        dsimp only at h ⊢
        cases hp : parseReasonerResponse jp content with
        | error msg => rfl
        | ok a =>
          rw [hp] at h
          simp at h
  · intro h
    unfold executorRun at h ⊢
    cases hl : st.lastAction with
    | none =>
      rw [hl] at h
      simp at h
    | some a =>
      rw [hl] at h
      dsimp only at h ⊢
      cases hA : execAttempt vc env a log <;> rw [hA] at h <;> simp_all

/-- Witness for C5 (amended): a concrete failure in each stage. -/
theorem stage_failure_retry_accounting_witness :
    (observerRun (.error "down")).errors ≠ [] ∧
    (observerRun (.error "down")).retryCount = none ∧
    (reasonerRun stBadClick (.error "down") jpClick).errors ≠ [] ∧
    (reasonerRun stBadClick (.error "down") jpClick).retryCount = some 2 ∧
    (executorRun false envNope stBadClick []).1.errors ≠ [] ∧
    (executorRun false envNope stBadClick []).1.retryCount = some 2 := by
  have h := stage_failure_retry_accounting (.error "down") stBadClick (.error "down")
    jpClick false envNope []
  refine ⟨by decide, h.1 (by decide), ?_, h.2.1 ?_, ?_, h.2.2 ?_⟩ <;> decide

/-- Claim C10: a click whose selector hint is coordinates-typed bypasses the
hybrid locator: it taps exactly at params.x and params.y (whatever the
selector's own x, y say), fails when either is missing, and never appends a
HealingEvent — although trySelector itself treats a coordinates locator as
already found. -/
theorem executor_coordinates_selector_bypass (vc : Bool) (env : LocEnv)
    (st : AgentState) (log : List HealingEvent) (a : ReasonerOutput)
    (sel : SelectorHint) (ha : st.lastAction = some a) (hact : a.action = "click")
    (hsel : a.params.selector = some sel) (htype : sel.type = .coordinates) :
    (∀ px py, a.params.x = some px → a.params.y = some py →
      (executorRun vc env st log).2.1 = [(px, py)] ∧
      (executorRun vc env st log).2.2 = log ∧
      (executorRun vc env st log).1.retryCount = some 0 ∧
      (executorRun vc env st log).1.errors = []) ∧
    ((a.params.x = none ∨ a.params.y = none) →
      (executorRun vc env st log).2.1 = [] ∧
      (executorRun vc env st log).2.2 = log ∧
      (executorRun vc env st log).1.errors ≠ [] ∧
      (executorRun vc env st log).1.retryCount = some (st.retryCount + 1)) ∧
    (∀ cx cy : Int, (trySelector env (.coordinates cx cy)).found = true ∧
      (trySelector env (.coordinates cx cy)).x = some cx ∧
      (trySelector env (.coordinates cx cy)).y = some cy) := by
  have hstep : execAttempt vc env a log = clickRaw a log := by
    simp [execAttempt, hact, hsel, htype]
  refine ⟨?_, ?_, ?_⟩
  · intro px py hx hy
    unfold executorRun
    rw [ha]
    dsimp only
    rw [hstep]
    unfold clickRaw
    rw [hx, hy]
    simp
  · intro hnone
    unfold executorRun
    rw [ha]
    dsimp only
    rw [hstep]
    unfold clickRaw
    rcases hnone with h | h
    · rw [h]
      simp
    · rw [h]
      cases hx : a.params.x <;> simp
  · intro cx cy
    exact ⟨rfl, rfl, rfl⟩

/-- Witness for C10: the taps land at params (10, 20), not at the selector's
own (111, 222), and the healing log stays empty. -/
theorem executor_coordinates_selector_bypass_witness :
    (executorRun false envNope stCoord []).2.1 = [(10, 20)] ∧
    (executorRun false envNope stCoord []).2.2 = [] ∧
    (executorRun false envNope stCoord []).1.retryCount = some 0 ∧
    coordSel.x = some 111 ∧ coordSel.y = some 222 := by
  have h := executor_coordinates_selector_bypass false envNope stCoord [] coordClick
    coordSel rfl rfl rfl rfl
  have h2 := h.1 10 20 rfl rfl
  exact ⟨h2.1, h2.2.1, h2.2.2.1, rfl, rfl⟩

/-- Any text emitted by truncateText is at most 50 characters long or carries
the ellipsis suffix. -/
theorem truncateText_ok (t : Option String) (s : String)
    (h : truncateText t = some s) :
    s.length ≤ 50 ∨ ∃ a, s = a ++ "..." := by
  unfold truncateText at h
  cases t with
  | none => simp at h
  | some s0 =>
    dsimp only at h
    split_ifs at h with h1 h2 h3
    · left
      obtain rfl := Option.some.inj h
      exact h3
    · right
      obtain rfl := Option.some.inj h
      exact ⟨String.mk ((trimChars s0.data).take 50), rfl⟩

/-- Every element emitted for one attribute record has a strictly positive
box, is not marked displayed="false", and has truncation-safe text fields. -/
theorem emitElement_ok (attrs : List (String × String)) (e : PrunedElement)
    (h : emitElement attrs = some e) :
    e.bounds.x1 < e.bounds.x2 ∧ e.bounds.y1 < e.bounds.y2 ∧
    attrGet attrs "displayed" ≠ some "false" ∧
    (∀ s, e.text = some s → s.length ≤ 50 ∨ ∃ a, s = a ++ "...") ∧
    (∀ s, e.contentDesc = some s → s.length ≤ 50 ∨ ∃ a, s = a ++ "...") := by
  unfold emitElement at h
  split_ifs at h with hcond hid
  all_goals try (rcases hb : parseBounds (jsOrOpt (attrGet attrs "bounds") "") with _ | b <;>
    rw [hb] at h <;> exact Option.noConfusion h)
  have hvis : isVisible attrs = true := by
    have hc := hcond
    simp only [Bool.and_eq_true] at hc
    exact hc.2
  have hdisp : ¬(attrGet attrs "displayed" = some "false") := by
    intro hd
    unfold isVisible at hvis
    rw [if_pos hd] at hvis
    exact Bool.noConfusion hvis
  cases hb : parseBounds (jsOrOpt (attrGet attrs "bounds") "") with
  | none =>
    rw [hb] at h
    exact Option.noConfusion h
  | some b =>
    have hwh : b.x1 < b.x2 ∧ b.y1 < b.y2 := by
      unfold isVisible at hvis
      rw [if_neg hdisp, hb] at hvis
      have := of_decide_eq_true hvis
      omega
    rw [hb] at h
    obtain rfl := Option.some.inj h
    refine ⟨by dsimp only; omega, by dsimp only; omega, hdisp, ?_, ?_⟩
    · intro s hs
      exact truncateText_ok _ s hs
    · intro s hs
      exact truncateText_ok _ s hs

/-- Every element produced by the pruner's walk satisfies the emit
invariants, and stems from a node not marked displayed="false". -/
theorem extractElements_invariant (nodes : List XmlNode) (e : PrunedElement)
    (he : e ∈ extractElements nodes) :
    e.bounds.x1 < e.bounds.x2 ∧ e.bounds.y1 < e.bounds.y2 ∧
    (∀ s, e.text = some s → s.length ≤ 50 ∨ ∃ a, s = a ++ "...") ∧
    (∀ s, e.contentDesc = some s → s.length ≤ 50 ∨ ∃ a, s = a ++ "...") ∧
    (∃ attrs, emitElement attrs = some e ∧ attrGet attrs "displayed" ≠ some "false") := by
  induction nodes using extractElements.induct with
  | case1 => simp [extractElements] at he
  | case2 attrs children rest ih1 ih2 =>
    simp only [extractElements, List.mem_append] at he
    rcases he with (he | he) | he
    · have hm : emitElement attrs = some e := by
        cases hm : emitElement attrs with
        | none => rw [hm] at he; simp at he
        | some e0 =>
          rw [hm] at he
          simp at he
          rw [he]
      have hp := emitElement_ok attrs e hm
      exact ⟨hp.1, hp.2.1, hp.2.2.2.1, hp.2.2.2.2, attrs, hm, hp.2.2.1⟩
    · exact ih1 he
    · exact ih2 he

/-- Claim C6: for every raw hierarchy input, every element the Tree Pruner
emits has strictly positive width and height, stems from a node not marked
displayed="false", and carries no text field longer than 50 characters unless
it ends with the ellipsis suffix. -/
theorem pruner_output_invariants (parsed : Except String (List XmlNode))
    (e : PrunedElement) (he : e ∈ parseAndroidXml parsed) :
    0 < e.bounds.x2 - e.bounds.x1 ∧ 0 < e.bounds.y2 - e.bounds.y1 ∧
    (∀ s, e.text = some s → s.length ≤ 50 ∨ ∃ a, s = a ++ "...") ∧
    (∀ s, e.contentDesc = some s → s.length ≤ 50 ∨ ∃ a, s = a ++ "...") ∧
    (∃ attrs, emitElement attrs = some e ∧ attrGet attrs "displayed" ≠ some "false") := by
  cases parsed with
  | error msg => simp [parseAndroidXml] at he
  | ok nodes =>
    have h := extractElements_invariant nodes e (by simpa [parseAndroidXml] using he)
    exact ⟨by omega, by omega, h.2.2.1, h.2.2.2.1, h.2.2.2.2⟩

/-- Witness for C6: the concrete node's element satisfies the invariants. -/
theorem pruner_output_invariants_witness :
    elemHi ∈ parseAndroidXml (.ok [nodeHi]) ∧
    0 < elemHi.bounds.x2 - elemHi.bounds.x1 ∧
    0 < elemHi.bounds.y2 - elemHi.bounds.y1 ∧
    (∀ s, elemHi.text = some s → s.length ≤ 50 ∨ ∃ a, s = a ++ "...") := by
  have hm : elemHi ∈ parseAndroidXml (.ok [nodeHi]) := by
    simp only [parseAndroidXml, nodeHi, extractElements]
    decide
  have h := pruner_output_invariants (.ok [nodeHi]) elemHi hm
  exact ⟨hm, h.1, h.2.1, h.2.2.1⟩

/-- Rounding the midpoint of two naturals: truncating division matches
JavaScript Math.round of the rational midpoint. -/
theorem jsRound_nat_half (k : ℕ) : (((k + 1) / 2 : ℕ) : ℤ) = jsRound ((k : ℚ) / 2) := by
  unfold jsRound
  have h : ((k : ℚ) / 2 + 1 / 2) = (((k + 1 : ℕ) : ℚ) / ((2 : ℕ) : ℚ)) := by push_cast; ring
  rw [h, Rat.floor_natCast_div_natCast]
  omega

/-- spanDigits splits its input into a digit run and the remainder. -/
theorem spanDigits_sound : ∀ (cs d r : List Char), spanDigits cs = (d, r) →
    cs = d ++ r ∧ ∀ c ∈ d, c.isDigit = true := by
  intro cs
  induction cs with
  | nil =>
    intro d r h
    simp [spanDigits] at h
    obtain ⟨rfl, rfl⟩ := h
    simp
  | cons c cs ih =>
    intro d r h
    unfold spanDigits at h
    by_cases hc : c.isDigit = true
    · rw [if_pos hc] at h
      dsimp only at h
      injection h with h1 h2
      subst h1
      subst h2
      obtain ⟨hcs, hall⟩ := ih (spanDigits cs).1 (spanDigits cs).2 rfl
      refine ⟨by rw [List.cons_append, ← hcs], ?_⟩
      intro x hx
      rcases List.mem_cons.mp hx with rfl | hx
      · exact hc
      · exact hall x hx
    · rw [if_neg hc] at h
      injection h with h1 h2
      subst h1
      subst h2
      simp

/-- spanDigits consumes exactly a digit run up to the first non-digit. -/
theorem spanDigits_complete : ∀ (d : List Char) (c : Char) (r : List Char),
    (∀ x ∈ d, x.isDigit = true) → c.isDigit = false →
    spanDigits (d ++ c :: r) = (d, c :: r) := by
  intro d
  induction d with
  | nil =>
    intro c r _ hc
    simp [spanDigits, hc]
  | cons a d ih =>
    intro c r hall hc
    have ha : a.isDigit = true := hall a (List.mem_cons_self a d)
    simp only [List.cons_append]
    unfold spanDigits
    rw [if_pos ha]
    dsimp only
    rw [ih c r (fun x hx => hall x (List.mem_cons_of_mem a hx)) hc]

/-- The matcher accepts every bounds token, wherever it stops. -/
theorem matchBoundsAt_complete (d1 d2 d3 d4 rest : List Char)
    (g1 : goodDigits d1) (g2 : goodDigits d2) (g3 : goodDigits d3) (g4 : goodDigits d4) :
    matchBoundsAt (boundsToken d1 d2 d3 d4 ++ rest) =
      some ((digitsVal d1, digitsVal d2, digitsVal d3, digitsVal d4), rest) := by
  obtain ⟨n1, a1⟩ := g1
  obtain ⟨n2, a2⟩ := g2
  obtain ⟨n3, a3⟩ := g3
  obtain ⟨n4, a4⟩ := g4
  have hexp : ∀ (c : Char) (l : List Char), expectChar c (c :: l) = some l := by
    intro c l
    simp [expectChar]
  simp only [boundsToken, List.cons_append, List.append_assoc, List.nil_append]
  unfold matchBoundsAt
  rw [hexp]
  dsimp only
  rw [spanDigits_complete d1 ',' _ a1 (by decide)]
  dsimp only
  rw [if_neg n1, hexp]
  dsimp only
  rw [spanDigits_complete d2 ']' _ a2 (by decide)]
  dsimp only
  rw [if_neg n2, hexp]
  dsimp only
  rw [hexp]
  dsimp only
  rw [spanDigits_complete d3 ',' _ a3 (by decide)]
  dsimp only
  rw [if_neg n3, hexp]
  dsimp only
  rw [spanDigits_complete d4 ']' _ a4 (by decide)]
  dsimp only
  rw [if_neg n4, hexp]

/-- expectChar succeeds exactly on the expected head character. -/
theorem expectChar_sound (c : Char) (cs r : List Char) (h : expectChar c cs = some r) :
    cs = c :: r := by
  unfold expectChar at h
  cases cs with
  | nil => exact Option.noConfusion h
  | cons x rest =>
    dsimp only at h
    split_ifs at h with hx
    · obtain rfl := Option.some.inj h
      rw [hx]

/-- Whatever the matcher accepts is a bounds token followed by the remainder. -/
theorem matchBoundsAt_sound (cs : List Char) (v1 v2 v3 v4 : Nat) (rest : List Char)
    (h : matchBoundsAt cs = some ((v1, v2, v3, v4), rest)) :
    ∃ d1 d2 d3 d4, goodDigits d1 ∧ goodDigits d2 ∧ goodDigits d3 ∧ goodDigits d4 ∧
      cs = boundsToken d1 d2 d3 d4 ++ rest ∧
      v1 = digitsVal d1 ∧ v2 = digitsVal d2 ∧ v3 = digitsVal d3 ∧ v4 = digitsVal d4 := by
  unfold matchBoundsAt at h
  cases h0 : expectChar '[' cs with
  | none => rw [h0] at h; exact Option.noConfusion h
  | some r0 =>
  rw [h0] at h
  dsimp only at h
  rcases hsp1 : spanDigits r0 with ⟨d1, p1⟩
  rw [hsp1] at h
  dsimp only at h
  by_cases e1 : d1 = []
  · rw [if_pos e1] at h; exact Option.noConfusion h
  rw [if_neg e1] at h
  cases h1 : expectChar ',' p1 with
  | none => rw [h1] at h; exact Option.noConfusion h
  | some r1 =>
  rw [h1] at h
  dsimp only at h
  rcases hsp2 : spanDigits r1 with ⟨d2, p2⟩
  rw [hsp2] at h
  dsimp only at h
  by_cases e2 : d2 = []
  · rw [if_pos e2] at h; exact Option.noConfusion h
  rw [if_neg e2] at h
  cases h2 : expectChar ']' p2 with
  | none => rw [h2] at h; exact Option.noConfusion h
  | some r1a =>
  rw [h2] at h
  dsimp only at h
  cases h2a : expectChar '[' r1a with
  | none => rw [h2a] at h; exact Option.noConfusion h
  | some r2 =>
  rw [h2a] at h
  dsimp only at h
  rcases hsp3 : spanDigits r2 with ⟨d3, p3⟩
  rw [hsp3] at h
  dsimp only at h
  by_cases e3 : d3 = []
  · rw [if_pos e3] at h; exact Option.noConfusion h
  rw [if_neg e3] at h
  cases h3 : expectChar ',' p3 with
  | none => rw [h3] at h; exact Option.noConfusion h
  | some r3 =>
  rw [h3] at h
  dsimp only at h
  rcases hsp4 : spanDigits r3 with ⟨d4, p4⟩
  rw [hsp4] at h
  dsimp only at h
  by_cases e4 : d4 = []
  · rw [if_pos e4] at h; exact Option.noConfusion h
  rw [if_neg e4] at h
  cases h4 : expectChar ']' p4 with
  | none => rw [h4] at h; exact Option.noConfusion h
  | some rest4 =>
  rw [h4] at h
  dsimp only at h
  have hinj := Option.some.inj h
  simp only [Prod.mk.injEq] at hinj
  obtain ⟨⟨hv1, hv2, hv3, hv4⟩, hrest⟩ := hinj
  obtain ⟨hr0, a1⟩ := spanDigits_sound r0 d1 p1 hsp1
  obtain ⟨hr1, a2⟩ := spanDigits_sound r1 d2 p2 hsp2
  obtain ⟨hr2, a3⟩ := spanDigits_sound r2 d3 p3 hsp3
  obtain ⟨hr3, a4⟩ := spanDigits_sound r3 d4 p4 hsp4
  have hcs := expectChar_sound '[' cs r0 h0
  have hc1 := expectChar_sound ',' p1 r1 h1
  have hc2 := expectChar_sound ']' p2 r1a h2
  have hc2a := expectChar_sound '[' r1a r2 h2a
  have hc3 := expectChar_sound ',' p3 r3 h3
  have hc4 := expectChar_sound ']' p4 rest4 h4
  subst hrest
  refine ⟨d1, d2, d3, d4, ⟨e1, a1⟩, ⟨e2, a2⟩, ⟨e3, a3⟩, ⟨e4, a4⟩, ?_,
    hv1.symm, hv2.symm, hv3.symm, hv4.symm⟩
  rw [hcs, hr0, hc1, hr1, hc2, hc2a, hr2, hc3, hr3, hc4]
  simp [boundsToken]

/-- The search resolves a leading bounds token to its four values. -/
theorem searchBounds_token (d1 d2 d3 d4 post : List Char)
    (g1 : goodDigits d1) (g2 : goodDigits d2) (g3 : goodDigits d3) (g4 : goodDigits d4) :
    searchBounds (boundsToken d1 d2 d3 d4 ++ post) =
      some (digitsVal d1, digitsVal d2, digitsVal d3, digitsVal d4) := by
  have hshape : boundsToken d1 d2 d3 d4 ++ post =
      '[' :: (d1 ++ ',' :: (d2 ++ ']' :: '[' :: (d3 ++ ',' :: (d4 ++ ']' :: post)))) := by
    simp [boundsToken]
  rw [hshape]
  unfold searchBounds
  rw [← hshape, matchBoundsAt_complete d1 d2 d3 d4 post g1 g2 g3 g4]

/-- The search cannot miss a bounds token anywhere in the input. -/
theorem searchBounds_finds : ∀ (pre d1 d2 d3 d4 post : List Char),
    goodDigits d1 → goodDigits d2 → goodDigits d3 → goodDigits d4 →
    searchBounds (pre ++ (boundsToken d1 d2 d3 d4 ++ post)) ≠ none := by
  intro pre
  induction pre with
  | nil =>
    intro d1 d2 d3 d4 post g1 g2 g3 g4
    rw [List.nil_append, searchBounds_token d1 d2 d3 d4 post g1 g2 g3 g4]
    simp
  | cons c pre ih =>
    intro d1 d2 d3 d4 post g1 g2 g3 g4
    rw [List.cons_append]
    unfold searchBounds
    cases hm : matchBoundsAt (c :: (pre ++ (boundsToken d1 d2 d3 d4 ++ post))) with
    | some p => simp
    | none => simpa using ih d1 d2 d3 d4 post g1 g2 g3 g4

/-- A successful search exposes a bounds token somewhere in the input. -/
theorem searchBounds_sound : ∀ (cs : List Char) (v1 v2 v3 v4 : Nat),
    searchBounds cs = some (v1, v2, v3, v4) →
    ∃ pre d1 d2 d3 d4 post, goodDigits d1 ∧ goodDigits d2 ∧ goodDigits d3 ∧ goodDigits d4 ∧
      cs = pre ++ (boundsToken d1 d2 d3 d4 ++ post) ∧
      v1 = digitsVal d1 ∧ v2 = digitsVal d2 ∧ v3 = digitsVal d3 ∧ v4 = digitsVal d4 := by
  intro cs
  induction cs with
  | nil => intro v1 v2 v3 v4 h; simp [searchBounds] at h
  | cons c cs ih =>
    intro v1 v2 v3 v4 h
    unfold searchBounds at h
    cases hm : matchBoundsAt (c :: cs) with
    | some p =>
      rw [hm] at h
      rcases p with ⟨⟨w1, w2, w3, w4⟩, rest⟩
      dsimp only at h
      have hinj := Option.some.inj h
      simp only [Prod.mk.injEq] at hinj
      obtain ⟨e1, e2, e3, e4⟩ := hinj
      subst e1
      subst e2
      subst e3
      subst e4
      obtain ⟨d1, d2, d3, d4, g1, g2, g3, g4, hdec, hv1, hv2, hv3, hv4⟩ :=
        matchBoundsAt_sound (c :: cs) w1 w2 w3 w4 rest hm
      exact ⟨[], d1, d2, d3, d4, rest, g1, g2, g3, g4, by simpa using hdec,
        hv1, hv2, hv3, hv4⟩
    | none =>
      rw [hm] at h
      obtain ⟨pre, d1, d2, d3, d4, post, g1, g2, g3, g4, hdec, hv⟩ := ih v1 v2 v3 v4 h
      exact ⟨c :: pre, d1, d2, d3, d4, post, g1, g2, g3, g4, by rw [List.cons_append, ← hdec],
        hv⟩

/-- parseBounds misses exactly when the regex search misses. -/
theorem parseBounds_none_iff (s : String) :
    parseBounds s = none ↔ searchBounds s.data = none := by
  unfold parseBounds
  cases hs : searchBounds s.data with
  | none => simp
  | some p =>
    rcases p with ⟨a, b, c, d⟩
    simp

/-- Counterexample for claim C8: "[5,5][3,3]" is not of the spec's form (it
violates x1 < x2 and y1 < y2), yet parseBounds accepts it instead of yielding
absence: the regex checks no ordering. -/
theorem parseBounds_unanchored_cex :
    parseBounds "[5,5][3,3]" =
      some { x1 := 5, y1 := 5, x2 := 3, y2 := 3, centerX := 4, centerY := 4 } ∧
    ¬∃ x1 y1 x2 y2 : Nat,
      specBoundsForm "[5,5][3,3]" x1 y1 x2 y2 ∧ x1 < x2 ∧ y1 < y2 := by
  refine ⟨by decide, ?_⟩
  rintro ⟨x1, y1, x2, y2, ⟨d1, d2, d3, d4, g1, g2, g3, g4, hdata, hv1, hv2, hv3, hv4⟩,
    hx, hy⟩
  have hm := matchBoundsAt_complete d1 d2 d3 d4 [] g1 g2 g3 g4
  rw [List.append_nil, ← hdata] at hm
  have hconc : matchBoundsAt (String.data "[5,5][3,3]") = some ((5, 5, 3, 3), []) := by
    decide
  have heq := hconc.symm.trans hm
  have hinj := Option.some.inj heq
  simp only [Prod.mk.injEq] at hinj
  omega

/-- Claim C8 (amended): for every string exactly of the form [x1,y1][x2,y2]
with x1 < x2 and y1 < y2, parseBounds yields centerX = round((x1 + x2) / 2)
and centerY = round((y1 + y2) / 2); and parseBounds yields absence exactly for
the strings containing no substring of the digit-run form [d1,d2][d3,d4] —
the match is unanchored and the coordinate ordering is never checked. -/
theorem parseBounds_characterization :
    (∀ (s : String) (x1 y1 x2 y2 : Nat), specBoundsForm s x1 y1 x2 y2 →
      x1 < x2 → y1 < y2 →
      parseBounds s = some
        { x1 := x1, y1 := y1, x2 := x2, y2 := y2
          centerX := (jsRound (((x1 : ℚ) + (x2 : ℚ)) / 2)).toNat
          centerY := (jsRound (((y1 : ℚ) + (y2 : ℚ)) / 2)).toNat }) ∧
    (∀ s : String, parseBounds s = none ↔
      ¬∃ pre d1 d2 d3 d4 post, goodDigits d1 ∧ goodDigits d2 ∧ goodDigits d3 ∧
        goodDigits d4 ∧ s.data = pre ++ (boundsToken d1 d2 d3 d4 ++ post)) := by
  have hhalf : ∀ m n : ℕ, (m + n + 1) / 2 = (jsRound (((m : ℚ) + (n : ℚ)) / 2)).toNat := by
    intro m n
    have hc : ((m : ℚ) + (n : ℚ)) = ((m + n : ℕ) : ℚ) := by push_cast; ring
    rw [hc, ← jsRound_nat_half (m + n)]
    omega
  constructor
  · intro s x1 y1 x2 y2 hform _ _
    obtain ⟨d1, d2, d3, d4, g1, g2, g3, g4, hdata, hv1, hv2, hv3, hv4⟩ := hform
    unfold parseBounds
    rw [hdata, show boundsToken d1 d2 d3 d4 = boundsToken d1 d2 d3 d4 ++ [] from
      (List.append_nil _).symm]
    rw [searchBounds_token d1 d2 d3 d4 [] g1 g2 g3 g4]
    dsimp only
    rw [hv1, hv2, hv3, hv4, hhalf x1 x2, hhalf y1 y2]
  · intro s
    rw [parseBounds_none_iff]
    constructor
    · rintro hnone ⟨pre, d1, d2, d3, d4, post, g1, g2, g3, g4, hdec⟩
      exact searchBounds_finds pre d1 d2 d3 d4 post g1 g2 g3 g4 (hdec ▸ hnone)
    · intro hno
      cases hs : searchBounds s.data with
      | none => rfl
      | some p =>
        rcases p with ⟨w1, w2, w3, w4⟩
        obtain ⟨pre, d1, d2, d3, d4, post, g1, g2, g3, g4, hdec, _⟩ :=
          searchBounds_sound s.data w1 w2 w3 w4 hs
        exact absurd ⟨pre, d1, d2, d3, d4, post, g1, g2, g3, g4, hdec⟩ hno

/-- Witness for C8 (amended): the well-formed string "[1,2][3,4]". -/
theorem parseBounds_characterization_witness :
    specBoundsForm "[1,2][3,4]" 1 2 3 4 ∧ 1 < 3 ∧ 2 < 4 ∧
    parseBounds "[1,2][3,4]" = some
      { x1 := 1, y1 := 2, x2 := 3, y2 := 4
        centerX := (jsRound (((1 : ℚ) + (3 : ℚ)) / 2)).toNat
        centerY := (jsRound (((2 : ℚ) + (4 : ℚ)) / 2)).toNat } := by
  have hform : specBoundsForm "[1,2][3,4]" 1 2 3 4 :=
    ⟨['1'], ['2'], ['3'], ['4'], ⟨by decide, by decide⟩, ⟨by decide, by decide⟩,
      ⟨by decide, by decide⟩, ⟨by decide, by decide⟩, by decide, rfl, rfl, rfl, rfl⟩
  have h := parseBounds_characterization.1 "[1,2][3,4]" 1 2 3 4 hform
    (by decide) (by decide)
  exact ⟨hform, by decide, by decide, h⟩

/-- zodEnum only accepts members of its vocabulary. -/
theorem zodEnum_mem (allowed : List String) (j : Json) (s : String)
    (h : zodEnum allowed j = .ok s) : s ∈ allowed := by
  unfold zodEnum at h
  cases j with
  | str t =>
    dsimp only at h
    split_ifs at h with ht
    · obtain rfl := Except.ok.inj h
      exact ht
  | null => exact Except.noConfusion h
  | bool b => exact Except.noConfusion h
  | num n => exact Except.noConfusion h
  | arr xs => exact Except.noConfusion h
  | obj fs => exact Except.noConfusion h

/-- A present optional field passed validation. -/
theorem zodOptField_some (fields : List (String × Json)) (k : String)
    (f : Json → Except String α) (v : α)
    (h : zodOptField fields k f = .ok (some v)) : ∃ j, f j = .ok v := by
  unfold zodOptField at h
  cases hg : jsonGet fields k with
  | none =>
    rw [hg] at h
    dsimp only at h
    exact absurd (Except.ok.inj h) (by simp)
  | some j =>
    rw [hg] at h
    dsimp only at h
    cases hf : f j with
    | error e =>
      rw [hf] at h
      exact Except.noConfusion h
    | ok w =>
      rw [hf] at h
      dsimp only at h
      obtain rfl := Option.some.inj (Except.ok.inj h)
      exact ⟨j, hf⟩

/-- A validated params bag has a direction from the fixed vocabulary. -/
theorem zodParams_direction (j : Json) (p : ActionParams) (h : zodParams j = .ok p) :
    ∀ d, p.direction = some d → d ∈ directionEnum := by
  intro d hd
  unfold zodParams at h
  cases j <;> try exact Except.noConfusion h
  rename_i fields
  dsimp only at h
  cases h1 : zodOptField fields "x" zodNumber with
  | error e => rw [h1] at h; exact Except.noConfusion h
  | ok px =>
  rw [h1] at h
  dsimp only at h
  cases h2 : zodOptField fields "y" zodNumber with
  | error e => rw [h2] at h; exact Except.noConfusion h
  | ok py =>
  rw [h2] at h
  dsimp only at h
  cases h3 : zodOptField fields "text" zodString with
  | error e => rw [h3] at h; exact Except.noConfusion h
  | ok pt =>
  rw [h3] at h
  dsimp only at h
  cases h4 : zodOptField fields "direction" (zodEnum directionEnum) with
  | error e => rw [h4] at h; exact Except.noConfusion h
  | ok pd =>
  rw [h4] at h
  dsimp only at h
  cases h5 : zodOptField fields "duration" zodNumber with
  | error e => rw [h5] at h; exact Except.noConfusion h
  | ok pu =>
  rw [h5] at h
  dsimp only at h
  cases h6 : zodOptField fields "selector" zodSelectorHint with
  | error e => rw [h6] at h; exact Except.noConfusion h
  | ok ps =>
  rw [h6] at h
  dsimp only at h
  cases h7 : zodOptField fields "elementDescription" zodString with
  | error e => rw [h7] at h; exact Except.noConfusion h
  | ok pe =>
  rw [h7] at h
  dsimp only at h
  obtain rfl := Except.ok.inj h
  dsimp only at hd
  subst hd
  obtain ⟨jd, hjd⟩ := zodOptField_some fields "direction" (zodEnum directionEnum) d h4
  exact zodEnum_mem directionEnum jd d hjd

/-- A validated reasoner output carries an in-vocabulary action and direction. -/
theorem zodReasonerOutput_ok (j : Json) (out : ReasonerOutput)
    (h : zodReasonerOutput j = .ok out) :
    out.action ∈ actionEnum ∧
    (∀ d, out.params.direction = some d → d ∈ directionEnum) := by
  unfold zodReasonerOutput at h
  cases j <;> try exact Except.noConfusion h
  rename_i fields
  dsimp only at h
  cases hgT : jsonGet fields "thought" with
  | none =>
    rw [hgT] at h
    dsimp only at h
    exact Except.noConfusion h
  | some jT =>
  rw [hgT] at h
  dsimp only at h
  cases hT : zodString jT with
  | error e => rw [hT] at h; exact Except.noConfusion h
  | ok thought =>
  rw [hT] at h
  dsimp only at h
  cases hgA : jsonGet fields "action" with
  | none =>
    rw [hgA] at h
    dsimp only at h
    exact Except.noConfusion h
  | some jA =>
  rw [hgA] at h
  dsimp only at h
  cases hA : zodEnum actionEnum jA with
  | error e => rw [hA] at h; exact Except.noConfusion h
  | ok act =>
  rw [hA] at h
  dsimp only at h
  cases hP : (match jsonGet fields "params" with
              | none => (.ok {} : Except String ActionParams)
              | some j => zodParams j) with
  | error e => rw [hP] at h; exact Except.noConfusion h
  | ok params =>
  rw [hP] at h
  dsimp only at h
  cases hG : (match jsonGet fields "targetElement" with
              | none => (.ok "unknown" : Except String String)
              | some j => zodString j) with
  | error e => rw [hG] at h; exact Except.noConfusion h
  | ok target =>
  rw [hG] at h
  dsimp only at h
  obtain rfl := Except.ok.inj h
  refine ⟨zodEnum_mem actionEnum jA act hA, ?_⟩
  intro d hd
  dsimp only at hd
  cases hgP : jsonGet fields "params" with
  | none =>
    rw [hgP] at hP
    dsimp only at hP
    obtain rfl := Except.ok.inj hP
    exact Option.noConfusion hd
  | some jP =>
    rw [hgP] at hP
    dsimp only at hP
    exact zodParams_direction jP params hP d hd

/-- A failed last-brace scan means no closing brace at all. -/
theorem upToLastBrace_none : ∀ (cs : List Char), upToLastBrace cs = none → '}' ∉ cs := by
  intro cs
  induction cs with
  | nil => intro _ h; simp at h
  | cons c rest ih =>
    intro h
    unfold upToLastBrace at h
    cases hr : upToLastBrace rest with
    | some t =>
      rw [hr] at h
      dsimp only at h
      exact Option.noConfusion h
    | none =>
      rw [hr] at h
      dsimp only at h
      split_ifs at h with hc
      simp only [List.mem_cons, not_or]
      exact ⟨fun he => hc he.symm, ih hr⟩

/-- A successful last-brace scan cuts exactly at the final closing brace. -/
theorem upToLastBrace_sound : ∀ (cs t : List Char), upToLastBrace cs = some t →
    ∃ mid post, cs = mid ++ '}' :: post ∧ '}' ∉ post ∧ t = mid ++ ['}'] := by
  intro cs
  induction cs with
  | nil => intro t h; simp [upToLastBrace] at h
  | cons c rest ih =>
    intro t h
    unfold upToLastBrace at h
    cases hr : upToLastBrace rest with
    | some t' =>
      rw [hr] at h
      dsimp only at h
      obtain rfl := Option.some.inj h
      obtain ⟨mid, post, hdec, hpost, rfl⟩ := ih t' hr
      exact ⟨c :: mid, post, by rw [List.cons_append, ← hdec], hpost, rfl⟩
    | none =>
      rw [hr] at h
      split_ifs at h with hc
      · obtain rfl := Option.some.inj h
        subst hc
        exact ⟨[], rest, rfl, upToLastBrace_none rest hr, rfl⟩

/-- The greedy brace regex captures the substring from the first opening brace
to the last closing brace. -/
theorem braceExtract_sound : ∀ (cs b : List Char), braceExtract cs = some b →
    ∃ pre mid post, cs = pre ++ '{' :: (mid ++ '}' :: post) ∧
      '{' ∉ pre ∧ '}' ∉ post ∧ b = '{' :: (mid ++ ['}']) := by
  intro cs
  induction cs with
  | nil => intro b h; simp [braceExtract] at h
  | cons c rest ih =>
    intro b h
    unfold braceExtract at h
    split_ifs at h with hc
    · cases hu : upToLastBrace rest with
      | some t =>
        rw [hu] at h
        dsimp only at h
        obtain rfl := Option.some.inj h
        obtain ⟨mid, post, hdec, hpost, rfl⟩ := upToLastBrace_sound rest t hu
        subst hc
        exact ⟨[], mid, post, by simp [hdec], by simp, hpost, rfl⟩
      | none =>
        rw [hu] at h
        obtain ⟨pre, mid, post, hdec, _, _, _⟩ := ih b h
        have hmem : '}' ∈ rest := by
          rw [hdec]
          simp
        exact absurd hmem (upToLastBrace_none rest hu)
    · obtain ⟨pre, mid, post, hdec, hpre, hpost, hb⟩ := ih b h
      refine ⟨c :: pre, mid, post, by rw [List.cons_append, ← hdec], ?_, hpost, hb⟩
      simp only [List.mem_cons, not_or]
      exact ⟨fun he => hc he.symm, hpre⟩

/-- Claim C9: the response parser either returns an output whose action is one
of the fixed enum values and whose parameters satisfy the schema — extracting
from a fenced code block when present, else the first greedy brace substring,
else the whole trimmed text — or it fails with a parse error; no failure path
ever returns a substituted default action. -/
theorem parse_response_properties (jp : String → Option Json) (text : String) :
    (∀ out, parseReasonerResponse jp text = .ok out →
      out.action ∈ actionEnum ∧
      (∀ d, out.params.direction = some d → d ∈ directionEnum)) ∧
    (jp (extractJsonStr text) = none →
      ∃ e, parseReasonerResponse jp text = .error e) ∧
    (∀ g, fencedFrom text.data = some g →
      extractJsonStr text = String.mk (trimChars g)) ∧
    (fencedFrom text.data = none → ∀ b, braceExtract text.data = some b →
      extractJsonStr text = String.mk b ∧
      ∃ pre mid post, text.data = pre ++ '{' :: (mid ++ '}' :: post) ∧
        '{' ∉ pre ∧ '}' ∉ post ∧ b = '{' :: (mid ++ ['}'])) ∧
    (fencedFrom text.data = none → braceExtract text.data = none →
      extractJsonStr text = String.mk (trimChars text.data)) := by
  refine ⟨?_, ?_, ?_, ?_, ?_⟩
  · intro out hok
    unfold parseReasonerResponse at hok
    cases hjp : jp (extractJsonStr text) with
    | none => rw [hjp] at hok; exact Except.noConfusion hok
    | some j =>
      rw [hjp] at hok
      exact zodReasonerOutput_ok j out hok
  · intro hnone
    unfold parseReasonerResponse
    rw [hnone]
    exact ⟨_, rfl⟩
  · intro g hg
    unfold extractJsonStr
    rw [hg]
  · intro hf b hb
    unfold extractJsonStr
    rw [hf, hb]
    exact ⟨rfl, braceExtract_sound text.data b hb⟩
  · intro hf hb
    unfold extractJsonStr
    rw [hf, hb]

/-- Witness for C9: a valid click object parses, and its action is in the
vocabulary. -/
theorem parse_response_properties_witness :
    parseReasonerResponse jpClick "do it" =
      .ok { thought := "t", action := "click", params := {}, targetElement := "unknown" } ∧
    "click" ∈ actionEnum := by
  have hok : parseReasonerResponse jpClick "do it" =
      .ok { thought := "t", action := "click", params := {}
            targetElement := "unknown" } := by rfl
  have h := (parse_response_properties jpClick "do it").1 _ hok
  exact ⟨hok, h.1⟩
